import Mathlib

/-!
Verification of the API-error-handling linter (`scripts/check-api-error-handling.py`).

The script is a windowed-context text scanner: it reads a file, splits it into
lines, and applies five pattern-based rules, each of which inspects a bounded
forward window of lines after a triggering line and appends Findings
(file, line, severity, message).  We embed the script shallowly:

  * file content is a `List Char` (Python `str`), lines a `List (List Char)`
    obtained by `content.split(chr 10)`;
  * Python substring tests (`needle in hay`) become `containsList`;
  * the script's regexes are alternations of literals plus a few
    character-class pieces, embedded as explicit deterministic matchers
    (`searchPred` mirrors `re.search` trying every start position);
  * `enumerate(lines, 1)` loops that append at most one Finding per line
    become `scanFrom g 1 lines`;
  * `check_file` takes an `Except String String` for the outcome of
    `file_path.read_text()` (`.error e` models the caught exception);
  * `mainExitCode` embeds the exit-code logic of `main` as a function of
    whether the scan root exists and the (path, read-outcome) list of files.
-/

/-- Severity of a Finding: the script uses the strings "error" and "warning". -/
inductive Severity where
  | error
  | warning
deriving DecidableEq, Repr

/-- One reported issue, mirroring the dicts the script appends to `file_issues`. -/
structure Finding where
  file : String
  line : Nat
  severity : Severity
  message : String
deriving DecidableEq, Repr

/-- Python `needle in hay` on strings, over explicit character lists. -/
def containsList (hay needle : List Char) : Bool :=
  needle.isPrefixOf hay ||
    match hay with
    | [] => false
    | _ :: t => containsList t needle

/-- Python `content.split(chr 10)`: split on newline, keeping empty pieces;
the empty string yields one empty line. -/
def splitOnNl : List Char → List (List Char)
  | [] => [[]]
  | c :: cs =>
    if c = '\n' then [] :: splitOnNl cs
    else
      match splitOnNl cs with
      | [] => [[c]]
      | l :: ls => (c :: l) :: ls

/-- Python `chr(10).join(pieces)`. -/
def joinLines : List (List Char) → List Char
  | [] => []
  | [l] => l
  | l :: l' :: ls => l ++ '\n' :: joinLines (l' :: ls)

/-- Python list slice `l[a:b]` (with `0 ≤ a ≤ b`). -/
def listSlice (l : List (List Char)) (a b : Nat) : List (List Char) :=
  (l.take b).drop a

/-- The forward context window every rule uses:
Python `chr(10).join(lines[start:min(stop, len(lines))])`. -/
def nextLinesText (lines : List (List Char)) (start stop : Nat) : List Char :=
  joinLines (listSlice lines start (min stop lines.length))

/-- Python `str.lower`, restricted to the ASCII case mapping the script relies on. -/
def lowerList (l : List Char) : List Char :=
  l.map Char.toLower

/-- ASCII characters matched by the regex class backslash-s in the script's patterns. -/
def isPySpace (c : Char) : Bool :=
  c = ' ' || c = '\t' || c = '\n' || c = '\r' || c = '\x0b' || c = '\x0c'

/-- re.search of a pattern: try the matcher at every start position of the text. -/
def searchPred (p : List Char → Bool) : List Char → Bool
  | [] => p []
  | c :: cs => p (c :: cs) || searchPred p cs

/-- The five error-class status-constant names of the script's status regex. -/
def errorStatusNames : List String :=
  ["BadRequest", "NotFound", "InternalServerError", "Unauthorized", "Forbidden"]

/-- Rule-1 trigger, `re.search` of `http.Status(?:BadRequest|NotFound|InternalServerError|Unauthorized|Forbidden)`:
an alternation of five literals, hence a contains-any test. -/
def statusSearch (line : List Char) : Bool :=
  errorStatusNames.any fun s => containsList line ("http.Status" ++ s).toList

/-- Tail of the rule-2 regex after the status name: an optional comma, optional
whitespace, the literal `models.ErrorResponse`, optional whitespace, `{`.
Each greedy piece here is deterministic because no alternative consumption
can be followed by the required next literal character. -/
def matchErrRespTail (r : List Char) : Bool :=
  let r1 := match r with
    | ',' :: t => t
    | _ => r
  let r2 := r1.dropWhile isPySpace
  if "models.ErrorResponse".toList.isPrefixOf r2 then
    match (r2.drop 20).dropWhile isPySpace with
    | '\x7b' :: _ => true
    | _ => false
  else false

/-- Rule-2 regex anchored at one position:
`c.JSON(http.Status(?:...),?\s*models.ErrorResponse\s*{`.
No status name is a prefix of another, so the alternation is deterministic. -/
def matchErrRespAt (l : List Char) : Bool :=
  if "c.JSON(http.Status".toList.isPrefixOf l then
    errorStatusNames.any fun st =>
      st.toList.isPrefixOf (l.drop 18) &&
        matchErrRespTail ((l.drop 18).drop st.toList.length)
  else false

/-- Rule-2 trigger: `re.search` of the combined single-line pattern. -/
def errRespSearch (line : List Char) : Bool :=
  searchPred matchErrRespAt line

/-- A query-call pattern `<pre>[^)]+)` anchored at one position, where `pre`
is a literal such as `.First(`: after the literal, one or more characters
other than `)` followed by `)`. -/
def matchCallAt (pre : List Char) (l : List Char) : Bool :=
  if pre.isPrefixOf l then
    let rest := l.drop pre.length
    let run := rest.takeWhile fun c => c ≠ ')'
    decide (0 < run.length) && !(rest.drop run.length).isEmpty
  else false

/-- The pattern `.GetBy[^(]+([^)]+)` anchored at one position. -/
def matchGetByAt (l : List Char) : Bool :=
  if ".GetBy".toList.isPrefixOf l then
    let r1 := l.drop 6
    let w := r1.takeWhile fun c => c ≠ '('
    if 0 < w.length then
      match r1.drop w.length with
      | '(' :: r3 =>
        let v := r3.takeWhile fun c => c ≠ ')'
        decide (0 < v.length) && !(r3.drop v.length).isEmpty
      | _ => false
    else false
  else false

/-- The four query-call patterns of rule 3, in the order of `db_query_patterns`. -/
def dbQueryMatchers : List (List Char → Bool) :=
  [searchPred (matchCallAt ".First(".toList),
   searchPred (matchCallAt ".Find(".toList),
   searchPred (matchCallAt ".GetByID(".toList),
   searchPred matchGetByAt]

/-- Rule-3 guard test on one line: `if err != nil` or `if err :=` as substring. -/
def isErrGuard (l : List Char) : Bool :=
  containsList l "if err != nil".toList || containsList l "if err :=".toList

/-- The loop `for j in range(i, min(i+20, len(lines)))` returning the first
index whose line is a guard: `j` counts from `i`, `fuel` many indices remain. -/
def findGuardAux (lines : List (List Char)) : Nat → Nat → Option Nat
  | _, 0 => none
  | j, fuel + 1 =>
    if isErrGuard (lines.getD j []) then some j
    else findGuardAux lines (j + 1) fuel

/-- First guard index in `range(i, min(i+20, len(lines)))`, or `none`. -/
def findGuard (lines : List (List Char)) (i : Nat) : Option Nat :=
  findGuardAux lines i (min (i + 20) lines.length - i)

/-- Rule 4/5 trigger, `re.search` of `h.log.Error(|s.log.Error(|log.Error(`:
an alternation of literals, hence a contains-any test. -/
def logErrorSearch (line : List Char) : Bool :=
  containsList line "h.log.Error(".toList ||
    containsList line "s.log.Error(".toList ||
    containsList line "log.Error(".toList

/-- A `for i, line in enumerate(lines, 1)` loop that appends at most one
Finding per iteration, starting the counter at `i`. -/
def scanFrom (g : Nat → List Char → Option Finding) : Nat → List (List Char) → List Finding
  | _, [] => []
  | i, l :: ls =>
    match g i l with
    | some f => f :: scanFrom g (i + 1) ls
    | none => scanFrom g (i + 1) ls

/-- Rule-1 message (ad-hoc gin.H map instead of models.ErrorResponse). -/
def envelopeMsg : String :=
  "使用了 gin.H 而不是 models.ErrorResponse，请使用标准化的错误响应格式"

/-- Rule-2 message (ErrorResponse missing its Code field). -/
def codeMsg : String := "ErrorResponse 缺少 Code 字段"

/-- Rule-3 message for a 404 that lacks a specific not-found error code. -/
def notFoundCodeMsg : String :=
  "404 错误应该使用具体的错误码（如 ANALYSIS_NOT_FOUND, INSIGHT_NOT_FOUND）"

/-- Rule-3 message for an unchecked record-not-found sentinel. -/
def sentinelMsg : String :=
  "数据库查询后应该检查 gorm.ErrRecordNotFound 并返回 404 错误"

/-- Rule-4 message (error log missing an error_code field). -/
def logErrCodeMsg : String :=
  "错误日志应该包含 error_code 字段（zap.String(\"error_code\", \"...\")）"

/-- Rule-5 message (error log missing a request_id field). -/
def logReqIdMsg : String := "错误日志应该包含 request_id 字段"

/-- Message of the Finding produced when reading the file raises. -/
def readFailMsg (e : String) : String := "无法读取文件: " ++ e

/-- Rule 1, body of the loop at one line: on an error-status constant,
look at the 6-line window `lines[i-1:min(i+5, len)]`; flag an error when it
uses `gin.H` without `models.ErrorResponse` and mentions an error concept. -/
def envelopeAt (file : String) (lines : List (List Char)) (i : Nat) (line : List Char) :
    Option Finding :=
  if statusSearch line then
    let next_lines := nextLinesText lines (i - 1) (i + 5)
    if containsList next_lines "gin.H".toList &&
        !containsList next_lines "models.ErrorResponse".toList then
      if containsList (lowerList next_lines) "error".toList ||
          containsList next_lines "\"error\"".toList ||
          containsList next_lines "\x27error\x27".toList then
        some ⟨file, i, Severity.error, envelopeMsg⟩
      else none
    else none
  else none

/-- Rule 1: the first `enumerate(lines, 1)` loop of `check_file`. -/
def ruleEnvelope (file : String) (lines : List (List Char)) : List Finding :=
  scanFrom (envelopeAt file lines) 1 lines

/-- Rule 2, body of the loop at one line: on the combined
`c.JSON(http.Status…, models.ErrorResponse{` pattern, look at the 11-line
window `lines[i-1:min(i+10, len)]`; flag an error when it has no `Code:`
and no `Code`.  (The script also sets a `has_error_response` flag here that
is never read afterwards; it has no effect on the output.) -/
def missingCodeAt (file : String) (lines : List (List Char)) (i : Nat) (line : List Char) :
    Option Finding :=
  if errRespSearch line then
    let next_lines := nextLinesText lines (i - 1) (i + 10)
    if !containsList next_lines "Code:".toList &&
        !containsList next_lines "Code".toList then
      some ⟨file, i, Severity.error, codeMsg⟩
    else none
  else none

/-- Rule 2: the second `enumerate(lines, 1)` loop of `check_file`. -/
def ruleMissingCode (file : String) (lines : List (List Char)) : List Finding :=
  scanFrom (missingCodeAt file lines) 1 lines

/-- Rule 3, body of the inner loop at one line, for one query pattern.
On a query-call match: find the first guard line among the next 20 lines
(the Python test `if err_check_start:` is truthiness, hence also false at
index 0; unreachable here since the search starts at `i ≥ 1`).  With a
guard, inspect the 15-line block `lines[j:min(j+15, len)]`: if it
recognises the not-found sentinel, optionally warn (at the guard line)
about a missing specific not-found code; otherwise warn (at the trigger
line) about the unchecked sentinel when
`(has_gorm_import and (First in line)) or (Find in line)` — the operator
precedence of the Python source.  With no guard, nothing is emitted. -/
def notFoundAt (file : String) (hasGorm : Bool) (lines : List (List Char))
    (pat : List Char → Bool) (i : Nat) (line : List Char) : Option Finding :=
  if pat line then
    match findGuard lines i with
    | some j =>
      if j = 0 then none
      else
        let error_block := nextLinesText lines j (j + 15)
        if containsList error_block "ErrRecordNotFound".toList ||
            containsList error_block "errors.Is".toList then
          if containsList error_block "StatusNotFound".toList then
            if !containsList error_block "ANALYSIS_NOT_FOUND".toList &&
                !containsList error_block "INSIGHT_NOT_FOUND".toList &&
                !containsList error_block "NOT_FOUND".toList then
              some ⟨file, j + 1, Severity.warning, notFoundCodeMsg⟩
            else none
          else none
        else
          if (hasGorm && containsList line "First".toList) ||
              containsList line "Find".toList then
            some ⟨file, i, Severity.warning, sentinelMsg⟩
          else none
    | none => none
  else none

/-- Rule 3: `for pattern in db_query_patterns: for i, line in enumerate(lines, 1)`.
(The script also sets a `has_record_not_found_check` flag that is never
read afterwards; it has no effect on the output.) -/
def ruleNotFound (file : String) (hasGorm : Bool) (lines : List (List Char)) : List Finding :=
  dbQueryMatchers.flatMap fun pat => scanFrom (notFoundAt file hasGorm lines pat) 1 lines

/-- Rule 4, body of the loop at one line: on an error-level log call, look at
the 6-line window; warn when it lacks both `error_code` and `ErrorCode` but
signals a 500-or-404 status. -/
def logErrCodeAt (file : String) (lines : List (List Char)) (i : Nat) (line : List Char) :
    Option Finding :=
  if logErrorSearch line then
    let next_lines := nextLinesText lines (i - 1) (i + 5)
    if !containsList next_lines "error_code".toList &&
        !containsList next_lines "ErrorCode".toList then
      if containsList next_lines "StatusInternalServerError".toList ||
          containsList next_lines "StatusNotFound".toList then
        some ⟨file, i, Severity.warning, logErrCodeMsg⟩
      else none
    else none
  else none

/-- Rule 4: the fourth `enumerate(lines, 1)` loop of `check_file`. -/
def ruleLogErrCode (file : String) (lines : List (List Char)) : List Finding :=
  scanFrom (logErrCodeAt file lines) 1 lines

/-- Rule 5, body of the loop at one line: like rule 4 but for
`request_id`/`RequestID`, with `StatusBadRequest` also accepted as the
status signal. -/
def logReqIdAt (file : String) (lines : List (List Char)) (i : Nat) (line : List Char) :
    Option Finding :=
  if logErrorSearch line then
    let next_lines := nextLinesText lines (i - 1) (i + 5)
    if !containsList next_lines "request_id".toList &&
        !containsList next_lines "RequestID".toList then
      if containsList next_lines "StatusInternalServerError".toList ||
          containsList next_lines "StatusNotFound".toList ||
          containsList next_lines "StatusBadRequest".toList then
        some ⟨file, i, Severity.warning, logReqIdMsg⟩
      else none
    else none
  else none

/-- Rule 5: the fifth `enumerate(lines, 1)` loop of `check_file`. -/
def ruleLogReqId (file : String) (lines : List (List Char)) : List Finding :=
  scanFrom (logReqIdAt file lines) 1 lines

/-- `lines = content.split(chr 10)` of `check_file`. -/
def fileLines (content : String) : List (List Char) :=
  splitOnNl content.toList

/-- `has_models_import` of `check_file` — computed by the script but never
read afterwards; kept here to document it. -/
def hasModelsImport (content : String) : Bool :=
  containsList content.toList "models.ErrorResponse".toList ||
    containsList content.toList "\"vibe-backend/internal/models\"".toList

/-- `has_gorm_import` of `check_file`: the file references the ORM's
not-found sentinel machinery. -/
def hasGormImport (content : String) : Bool :=
  containsList content.toList "gorm.io/gorm".toList ||
    containsList content.toList "gorm.ErrRecordNotFound".toList

/-- `has_errors_import` of `check_file` — computed by the script but never
read afterwards; kept here to document it. -/
def hasErrorsImport (content : String) : Bool :=
  containsList content.toList "errors".toList ||
    containsList content.toList "\"errors\"".toList

/-- `check_file`: on a read failure return the single file-level error
Finding; otherwise run the five rules in order and concatenate their
appended Findings. -/
def check_file (filePath : String) (input : Except String String) : List Finding :=
  match input with
  | Except.error e => [⟨filePath, 0, Severity.error, readFailMsg e⟩]
  | Except.ok content =>
    ruleEnvelope filePath (fileLines content) ++
      ruleMissingCode filePath (fileLines content) ++
      ruleNotFound filePath (hasGormImport content) (fileLines content) ++
      ruleLogErrCode filePath (fileLines content) ++
      ruleLogReqId filePath (fileLines content)

/-- One candidate file of `main`: its path and the outcome of reading it. -/
structure FileInput where
  name : String
  result : Except String String
deriving Repr

/-- The `for go_file in go_files: issues.extend(check_file(go_file))` loop. -/
def allIssues (files : List FileInput) : List Finding :=
  files.flatMap fun f => check_file f.name f.result

/-- The Findings the run produces: none when the scan root is missing
(`main` exits before scanning), otherwise the issues of every file. -/
def producedFindings (rootExists : Bool) (files : List FileInput) : List Finding :=
  if rootExists then allIssues files else []

/-- The `sys.exit` code of `main`: 1 when the scan root is missing; 0 when no
files were found; otherwise 1 exactly when some issue has severity error. -/
def mainExitCode (rootExists : Bool) (files : List FileInput) : Nat :=
  if !rootExists then 1
  else if files.isEmpty then 0
  else
    let issues := allIssues files
    if !issues.isEmpty then
      if !(issues.filter fun x => x.severity == Severity.error).isEmpty then 1
      else 0
    else 0

/-- Modelled from the spec's window contract (for comparison with the
source's slicing): the lines whose indices lie in
`[start, min(start+span, len))`. -/
def windowSpec (lines : List (List Char)) (start span : Nat) : List (List Char) :=
  (List.range' start (min (start + span) lines.length - start)).map fun k => lines.getD k []

/-- Rule 2 reworded per claim C10: the emission test reduced to the bare
`Code` substring check (for comparison with `missingCodeAt`). -/
def missingCodeBareAt (file : String) (lines : List (List Char)) (i : Nat) (line : List Char) :
    Option Finding :=
  if errRespSearch line then
    if !containsList (nextLinesText lines (i - 1) (i + 10)) "Code".toList then
      some ⟨file, i, Severity.error, codeMsg⟩
    else none
  else none

/-- Rule 2 built from the reworded per-line test. -/
def ruleMissingCodeBare (file : String) (lines : List (List Char)) : List Finding :=
  scanFrom (missingCodeBareAt file lines) 1 lines

/-- A file with a `.First(...)` query, no error-check guard anywhere below it,
whose text references the gorm import. -/
def contentUncheckedNoGuard : String :=
  "import \"gorm.io/gorm\"\nuser := db.First(&user)\nreturn user"

/-- A file that never mentions gorm, with a `.Find(...)` query whose guard
body lacks the not-found recognition idiom. -/
def contentFindNoGorm : String :=
  "res := db.Find(&items)\nif err != nil \x7b\nreturn\n\x7d"

/-- A file whose `.Find(...)` trigger precedes its `.First(...)` trigger, so
the pattern-major scan order of rule 3 reports the later line first. -/
def contentPatternOrder : String :=
  "a.Find(x)\nb.First(y)\nif err != nil \x7b\n\x7d\n// gorm.io/gorm"

/-- A file whose `.GetByID(...)` line matches two query patterns and whose
guard body recognises the sentinel, returns a 404 status, and has no
specific not-found code. -/
def contentGetByIdDup : String :=
  "obj.GetByID(id)\nif err != nil \x7b\n  if errors.Is(err, gorm.ErrRecordNotFound) \x7b\n    respond(c, http.StatusNotFound)\n  \x7d\n\x7d"

/-- Scenario B: an ErrorResponse constructed at StatusBadRequest with a
`Code:` field on the following line. -/
def contentScenarioB : String :=
  "c.JSON(http.StatusBadRequest, models.ErrorResponse\x7b\nCode: \"INVALID\",\n\x7d)"

/-- An ErrorResponse constructor with no Code field whose window nevertheless
contains `Code` inside the identifier `StatusCodeText`. -/
def contentStatusCodeToken : String :=
  "c.JSON(http.StatusBadRequest, models.ErrorResponse\x7b\nMessage: StatusCodeText\x7d)"

/-! ## Scanner lemmas -/

/-- Membership in a `scanFrom` loop: a Finding is produced exactly when the
per-line body produces it at some index. -/
theorem mem_scanFrom (g : Nat → List Char → Option Finding) (f : Finding) :
    ∀ (ls : List (List Char)) (i : Nat),
      f ∈ scanFrom g i ls ↔ ∃ k, k < ls.length ∧ g (i + k) (ls.getD k []) = some f := by
  intro ls
  induction ls with
  | nil => intro i; simp [scanFrom]
  | cons l t ih =>
    intro i
    rw [scanFrom]
    have shift : (∃ k, k < t.length ∧ g (i + 1 + k) (t.getD k []) = some f) ↔
        (∃ k, 0 < k ∧ k < t.length + 1 ∧ g (i + k) ((l :: t).getD k []) = some f) := by
      constructor
      · rintro ⟨k, hk, hgk⟩
        refine ⟨k + 1, Nat.succ_pos _, by omega, ?_⟩
        rw [List.getD_cons_succ]
        have e : i + (k + 1) = i + 1 + k := by omega
        rw [e]; exact hgk
      · rintro ⟨k, hk0, hk, hgk⟩
        cases k with
        | zero => omega
        | succ k =>
          refine ⟨k, by omega, ?_⟩
          rw [List.getD_cons_succ] at hgk
          have e : i + 1 + k = i + (k + 1) := by omega
          rw [e]; exact hgk
    cases hg : g i l with
    | none =>
      rw [ih (i + 1), shift]
      constructor
      · rintro ⟨k, hk0, hk, hgk⟩
        exact ⟨k, by simpa using hk, hgk⟩
      · rintro ⟨k, hk, hgk⟩
        refine ⟨k, ?_, by simpa using hk, hgk⟩
        rcases Nat.eq_zero_or_pos k with rfl | hpos
        · rw [List.getD_cons_zero, Nat.add_zero, hg] at hgk; cases hgk
        · exact hpos
    | some f' =>
      rw [List.mem_cons, ih (i + 1), shift]
      constructor
      · rintro (rfl | ⟨k, hk0, hk, hgk⟩)
        · exact ⟨0, by simp, by simpa using hg⟩
        · exact ⟨k, by simpa using hk, hgk⟩
      · rintro ⟨k, hk, hgk⟩
        rcases Nat.eq_zero_or_pos k with rfl | hpos
        · rw [List.getD_cons_zero, Nat.add_zero, hg] at hgk
          exact Or.inl (Option.some.inj hgk).symm
        · exact Or.inr ⟨k, hpos, by simpa using hk, hgk⟩

/-- Two loops with pointwise-equal bodies produce the same Findings. -/
theorem scanFrom_congr (g g' : Nat → List Char → Option Finding)
    (h : ∀ i l, g i l = g' i l) :
    ∀ (ls : List (List Char)) (i : Nat), scanFrom g i ls = scanFrom g' i ls := by
  intro ls
  induction ls with
  | nil => intro i; rfl
  | cons l t ih =>
    intro i
    rw [scanFrom, scanFrom, h i l, ih (i + 1)]

/-- In a loop whose body always records the current index as the line,
every produced Finding's line is at least the start index. -/
theorem scanFrom_line_ge (g : Nat → List Char → Option Finding)
    (hg : ∀ i l f, g i l = some f → f.line = i) :
    ∀ (ls : List (List Char)) (i : Nat) (f : Finding), f ∈ scanFrom g i ls → i ≤ f.line := by
  intro ls
  induction ls with
  | nil => intro i f hf; simp [scanFrom] at hf
  | cons l t ih =>
    intro i f hf
    rw [scanFrom] at hf
    cases hgl : g i l with
    | none =>
      rw [hgl] at hf
      exact Nat.le_of_succ_le (ih (i + 1) f hf)
    | some f' =>
      rw [hgl] at hf
      rcases List.mem_cons.mp hf with rfl | hmem
      · exact Nat.le_of_eq (hg i l f hgl).symm
      · exact Nat.le_of_succ_le (ih (i + 1) f hmem)

/-- In a loop whose body always records the current index as the line, the
produced Findings have non-decreasing line numbers. -/
theorem scanFrom_pairwise_le (g : Nat → List Char → Option Finding)
    (hg : ∀ i l f, g i l = some f → f.line = i) :
    ∀ (ls : List (List Char)) (i : Nat),
      List.Pairwise (fun a b => a.line ≤ b.line) (scanFrom g i ls) := by
  intro ls
  induction ls with
  | nil => intro i; simp [scanFrom]
  | cons l t ih =>
    intro i
    rw [scanFrom]
    cases hgl : g i l with
    | none => exact ih (i + 1)
    | some f' =>
      refine List.Pairwise.cons (fun b hb => ?_) (ih (i + 1))
      have h1 : i + 1 ≤ b.line := scanFrom_line_ge g hg t (i + 1) b hb
      have h2 : f'.line = i := hg i l f' hgl
      omega

/-! ## Shape of each rule's per-line output -/

/-- Rule 1 only ever produces the envelope error Finding at the current line. -/
theorem envelopeAt_shape {file : String} {lines : List (List Char)} {i : Nat}
    {line : List Char} {f : Finding} (h : envelopeAt file lines i line = some f) :
    f = ⟨file, i, Severity.error, envelopeMsg⟩ := by
  simp only [envelopeAt] at h
  split_ifs at h with h1 h2 h3
  exact (Option.some.inj h).symm

/-- Rule 2 only ever produces the missing-Code error Finding at the current line. -/
theorem missingCodeAt_shape {file : String} {lines : List (List Char)} {i : Nat}
    {line : List Char} {f : Finding} (h : missingCodeAt file lines i line = some f) :
    f = ⟨file, i, Severity.error, codeMsg⟩ := by
  simp only [missingCodeAt] at h
  split_ifs at h with h1 h2
  exact (Option.some.inj h).symm

/-- Rule 3 only ever produces warning Findings, with one of its two messages;
the not-found-code message is reported at the line after the guard index and
the sentinel message at the current line. -/
theorem notFoundAt_shape {file : String} {hasGorm : Bool} {lines : List (List Char)}
    {pat : List Char → Bool} {i : Nat} {line : List Char} {f : Finding}
    (h : notFoundAt file hasGorm lines pat i line = some f) :
    (∃ j, findGuard lines i = some j ∧ f = ⟨file, j + 1, Severity.warning, notFoundCodeMsg⟩) ∨
      f = ⟨file, i, Severity.warning, sentinelMsg⟩ := by
  simp only [notFoundAt] at h
  by_cases h1 : pat line = true
  · rw [if_pos h1] at h
    cases hj : findGuard lines i with
    | none => rw [hj] at h; cases h
    | some j =>
      rw [hj] at h
      dsimp only at h
      split_ifs at h with h2 h3 h4 h5 h6
      · exact Or.inl ⟨j, rfl, (Option.some.inj h).symm⟩
      · exact Or.inr (Option.some.inj h).symm
  · rw [if_neg h1] at h; cases h

/-- Rule 4 only ever produces the log-error-code warning at the current line. -/
theorem logErrCodeAt_shape {file : String} {lines : List (List Char)} {i : Nat}
    {line : List Char} {f : Finding} (h : logErrCodeAt file lines i line = some f) :
    f = ⟨file, i, Severity.warning, logErrCodeMsg⟩ := by
  simp only [logErrCodeAt] at h
  split_ifs at h with h1 h2 h3
  exact (Option.some.inj h).symm

/-- Rule 5 only ever produces the log-request-id warning at the current line. -/
theorem logReqIdAt_shape {file : String} {lines : List (List Char)} {i : Nat}
    {line : List Char} {f : Finding} (h : logReqIdAt file lines i line = some f) :
    f = ⟨file, i, Severity.warning, logReqIdMsg⟩ := by
  simp only [logReqIdAt] at h
  split_ifs at h with h1 h2 h3
  exact (Option.some.inj h).symm

/-- Message of every rule-1 Finding. -/
theorem mem_ruleEnvelope_message {file : String} {lines : List (List Char)} {f : Finding}
    (h : f ∈ ruleEnvelope file lines) : f.message = envelopeMsg := by
  rw [ruleEnvelope, mem_scanFrom] at h
  obtain ⟨k, _, hk⟩ := h
  rw [envelopeAt_shape hk]

/-- Message of every rule-2 Finding. -/
theorem mem_ruleMissingCode_message {file : String} {lines : List (List Char)} {f : Finding}
    (h : f ∈ ruleMissingCode file lines) : f.message = codeMsg := by
  rw [ruleMissingCode, mem_scanFrom] at h
  obtain ⟨k, _, hk⟩ := h
  rw [missingCodeAt_shape hk]

/-- Message of every rule-3 Finding. -/
theorem mem_ruleNotFound_message {file : String} {hasGorm : Bool}
    {lines : List (List Char)} {f : Finding} (h : f ∈ ruleNotFound file hasGorm lines) :
    f.message = notFoundCodeMsg ∨ f.message = sentinelMsg := by
  rw [ruleNotFound] at h
  obtain ⟨pat, _, hmem⟩ := List.mem_flatMap.mp h
  rw [mem_scanFrom] at hmem
  obtain ⟨k, _, hk⟩ := hmem
  rcases notFoundAt_shape hk with ⟨j, _, rfl⟩ | rfl
  · exact Or.inl rfl
  · exact Or.inr rfl

/-- Message of every rule-4 Finding. -/
theorem mem_ruleLogErrCode_message {file : String} {lines : List (List Char)} {f : Finding}
    (h : f ∈ ruleLogErrCode file lines) : f.message = logErrCodeMsg := by
  rw [ruleLogErrCode, mem_scanFrom] at h
  obtain ⟨k, _, hk⟩ := h
  rw [logErrCodeAt_shape hk]

/-- Message of every rule-5 Finding. -/
theorem mem_ruleLogReqId_message {file : String} {lines : List (List Char)} {f : Finding}
    (h : f ∈ ruleLogReqId file lines) : f.message = logReqIdMsg := by
  rw [ruleLogReqId, mem_scanFrom] at h
  obtain ⟨k, _, hk⟩ := h
  rw [logReqIdAt_shape hk]

/-- Unfolding `check_file` on readable content. -/
theorem check_file_ok (file content : String) :
    check_file file (Except.ok content) =
      ruleEnvelope file (fileLines content) ++
        ruleMissingCode file (fileLines content) ++
        ruleNotFound file (hasGormImport content) (fileLines content) ++
        ruleLogErrCode file (fileLines content) ++
        ruleLogReqId file (fileLines content) := rfl

/-- If a text contains a concatenation, it contains the left part. -/
theorem containsList_append_left {hay a b : List Char}
    (h : containsList hay (a ++ b) = true) : containsList hay a = true := by
  induction hay with
  | nil =>
    rw [containsList] at h ⊢
    simp only [Bool.or_false] at h ⊢
    rw [List.isPrefixOf_iff_prefix] at h ⊢
    exact (List.prefix_append a b).trans h
  | cons c t ih =>
    rw [containsList] at h ⊢
    rcases Bool.or_eq_true_iff.mp h with hpre | hrec
    · refine Bool.or_eq_true_iff.mpr (Or.inl ?_)
      rw [List.isPrefixOf_iff_prefix] at hpre ⊢
      exact (List.prefix_append a b).trans hpre
    · exact Bool.or_eq_true_iff.mpr (Or.inr (ih hrec))

/-! ## Per-line condition characterisations -/

/-- Rule 1's per-line body fires exactly under the conditions of the source:
trigger, `gin.H` without `models.ErrorResponse` in the 6-line window, and an
error-ish token in the window. -/
theorem envelopeAt_eq_some_iff (file : String) (lines : List (List Char)) (i : Nat)
    (line : List Char) :
    envelopeAt file lines i line = some ⟨file, i, Severity.error, envelopeMsg⟩ ↔
      (statusSearch line = true ∧
       containsList (nextLinesText lines (i - 1) (i + 5)) "gin.H".toList = true ∧
       containsList (nextLinesText lines (i - 1) (i + 5)) "models.ErrorResponse".toList = false ∧
       (containsList (lowerList (nextLinesText lines (i - 1) (i + 5))) "error".toList = true ∨
        containsList (nextLinesText lines (i - 1) (i + 5)) "\"error\"".toList = true ∨
        containsList (nextLinesText lines (i - 1) (i + 5)) "\x27error\x27".toList = true)) := by
  simp only [envelopeAt]
  split_ifs with h1 h2 h3 <;>
    simp_all [Bool.and_eq_true, Bool.not_eq_true', Bool.or_eq_true, or_assoc]

/-- Rule 2's per-line body fires exactly under the conditions of the source:
trigger, and neither `Code:` nor `Code` in the 11-line window. -/
theorem missingCodeAt_eq_some_iff (file : String) (lines : List (List Char)) (i : Nat)
    (line : List Char) :
    missingCodeAt file lines i line = some ⟨file, i, Severity.error, codeMsg⟩ ↔
      (errRespSearch line = true ∧
       containsList (nextLinesText lines (i - 1) (i + 10)) "Code:".toList = false ∧
       containsList (nextLinesText lines (i - 1) (i + 10)) "Code".toList = false) := by
  simp only [missingCodeAt]
  split_ifs with h1 h2 <;>
    simp_all [Bool.and_eq_true, Bool.not_eq_true', Bool.or_eq_true]

/-- When rule 3's per-line body emits the sentinel warning, the Python
condition `(has_gorm_import and (First in line)) or (Find in line)` held. -/
theorem notFoundAt_sentinel_cond {file : String} {hasGorm : Bool}
    {lines : List (List Char)} {pat : List Char → Bool} {i : Nat} {line : List Char}
    {f : Finding} (h : notFoundAt file hasGorm lines pat i line = some f)
    (hmsg : f.message = sentinelMsg) :
    (hasGorm = true ∧ containsList line "First".toList = true) ∨
      containsList line "Find".toList = true := by
  simp only [notFoundAt] at h
  by_cases h1 : pat line = true
  · rw [if_pos h1] at h
    cases hj : findGuard lines i with
    | none => rw [hj] at h; cases h
    | some j =>
      rw [hj] at h
      dsimp only at h
      split_ifs at h with h2 h3 h4 h5 h6
      · rw [← Option.some.inj h] at hmsg
        dsimp only at hmsg
        exact absurd hmsg (by decide)
      · simpa [Bool.and_eq_true, Bool.or_eq_true] using h6
  · rw [if_neg h1] at h; cases h

/-! ## Claim theorems -/

/-- C4: `check_file` emits the ad-hoc-map error Finding at a line exactly when
that line contains one of the five error-status constants and the 6-line
window starting there contains `gin.H`, does not contain
`models.ErrorResponse`, and references an error concept (case-insensitive
substring `error`, or a double- or single-quoted `error` literal). -/
theorem c4_envelope_finding_iff (file content : String) (k : Nat) :
    (⟨file, k + 1, Severity.error, envelopeMsg⟩ : Finding) ∈
        check_file file (Except.ok content) ↔
      (k < (fileLines content).length ∧
       statusSearch ((fileLines content).getD k []) = true ∧
       containsList (nextLinesText (fileLines content) k (k + 6)) "gin.H".toList = true ∧
       containsList (nextLinesText (fileLines content) k (k + 6))
         "models.ErrorResponse".toList = false ∧
       (containsList (lowerList (nextLinesText (fileLines content) k (k + 6)))
          "error".toList = true ∨
        containsList (nextLinesText (fileLines content) k (k + 6)) "\"error\"".toList = true ∨
        containsList (nextLinesText (fileLines content) k (k + 6)) "\x27error\x27".toList = true)) := by
  have hwin1 : k + 1 - 1 = k := by omega
  have hwin2 : k + 1 + 5 = k + 6 := by omega
  have hidx : 1 + k = k + 1 := by omega
  rw [check_file_ok]
  simp only [List.mem_append]
  constructor
  · rintro ((((hm | hm) | hm) | hm) | hm)
    · rw [ruleEnvelope, mem_scanFrom] at hm
      obtain ⟨j, hj, hsome⟩ := hm
      have hshape := envelopeAt_shape hsome
      have hline : k + 1 = 1 + j := congrArg Finding.line hshape
      have hjk : j = k := by omega
      subst hjk
      rw [hidx, envelopeAt_eq_some_iff, hwin1, hwin2] at hsome
      exact ⟨hj, hsome⟩
    · exact absurd (show envelopeMsg = codeMsg from mem_ruleMissingCode_message hm) (by decide)
    · rcases mem_ruleNotFound_message hm with h' | h'
      · exact absurd (show envelopeMsg = notFoundCodeMsg from h') (by decide)
      · exact absurd (show envelopeMsg = sentinelMsg from h') (by decide)
    · exact absurd (show envelopeMsg = logErrCodeMsg from mem_ruleLogErrCode_message hm)
        (by decide)
    · exact absurd (show envelopeMsg = logReqIdMsg from mem_ruleLogReqId_message hm) (by decide)
  · rintro ⟨hk, hs, hg, hmo, he⟩
    refine Or.inl (Or.inl (Or.inl (Or.inl ?_)))
    rw [ruleEnvelope, mem_scanFrom]
    refine ⟨k, hk, ?_⟩
    rw [hidx, envelopeAt_eq_some_iff, hwin1, hwin2]
    exact ⟨hs, hg, hmo, he⟩

/-- C5: `check_file` emits the missing-Code error Finding at a line exactly
when that line matches the combined single-line constructor pattern and the
11-line window starting there contains neither `Code:` nor `Code`; in
particular (Scenario B) a constructor with a `Code:` field two lines below
yields no Findings at all. -/
theorem c5_missing_code_finding_iff :
    (∀ (file content : String) (k : Nat),
      (⟨file, k + 1, Severity.error, codeMsg⟩ : Finding) ∈
          check_file file (Except.ok content) ↔
        (k < (fileLines content).length ∧
         errRespSearch ((fileLines content).getD k []) = true ∧
         containsList (nextLinesText (fileLines content) k (k + 11)) "Code:".toList = false ∧
         containsList (nextLinesText (fileLines content) k (k + 11)) "Code".toList = false)) ∧
      check_file "b.go" (Except.ok contentScenarioB) = [] := by
  constructor
  · intro file content k
    have hwin1 : k + 1 - 1 = k := by omega
    have hwin2 : k + 1 + 10 = k + 11 := by omega
    have hidx : 1 + k = k + 1 := by omega
    rw [check_file_ok]
    simp only [List.mem_append]
    constructor
    · rintro ((((hm | hm) | hm) | hm) | hm)
      · exact absurd (show codeMsg = envelopeMsg from mem_ruleEnvelope_message hm) (by decide)
      · rw [ruleMissingCode, mem_scanFrom] at hm
        obtain ⟨j, hj, hsome⟩ := hm
        have hshape := missingCodeAt_shape hsome
        have hline : k + 1 = 1 + j := congrArg Finding.line hshape
        have hjk : j = k := by omega
        subst hjk
        rw [hidx, missingCodeAt_eq_some_iff, hwin1, hwin2] at hsome
        exact ⟨hj, hsome⟩
      · rcases mem_ruleNotFound_message hm with h' | h'
        · exact absurd (show codeMsg = notFoundCodeMsg from h') (by decide)
        · exact absurd (show codeMsg = sentinelMsg from h') (by decide)
      · exact absurd (show codeMsg = logErrCodeMsg from mem_ruleLogErrCode_message hm)
          (by decide)
      · exact absurd (show codeMsg = logReqIdMsg from mem_ruleLogReqId_message hm) (by decide)
    · rintro ⟨hk, hs, hc1, hc2⟩
      refine Or.inl (Or.inl (Or.inl (Or.inr ?_)))
      rw [ruleMissingCode, mem_scanFrom]
      refine ⟨k, hk, ?_⟩
      rw [hidx, missingCodeAt_eq_some_iff, hwin1, hwin2]
      exact ⟨hs, hc1, hc2⟩
  · decide

/-- The rule-2 emission condition with and without the redundant `Code:`
conjunct coincide: a window containing `Code:` also contains `Code`. -/
theorem codeCond_eq (w : List Char) :
    (!containsList w "Code:".toList && !containsList w "Code".toList) =
      (!containsList w "Code".toList) := by
  cases hA : containsList w "Code:".toList <;>
    cases hB : containsList w "Code".toList <;> simp_all
  have hcode := containsList_append_left (a := ['C', 'o', 'd', 'e']) (b := [':']) hA
  rw [hcode] at hB
  cases hB

/-- C1: the source never reports a query call that has no error-check guard
at all.  In this file, line 2 matches the `.First(...)` pattern, no guard
exists in the 20 lines below it, and the file references the gorm import,
yet `check_file` returns no Findings — the warning branch is nested inside
the guard-found case, so the guard-absent case is silent. -/
theorem c1_unchecked_query_no_guard_silent :
    check_file "handler.go" (Except.ok contentUncheckedNoGuard) = [] ∧
      hasGormImport contentUncheckedNoGuard = true ∧
      searchPred (matchCallAt ".First(".toList)
        ((fileLines contentUncheckedNoGuard).getD 1 []) = true ∧
      findGuard (fileLines contentUncheckedNoGuard) 2 = none := by decide

/-- C2 counterexample: a file that never references gorm still receives the
sentinel warning, because the Python condition parses as
`(has_gorm_import and First-in-line) or Find-in-line` and the trigger line
contains `Find`. -/
theorem c2_cex_find_without_gorm :
    check_file "f.go" (Except.ok contentFindNoGorm) =
        [⟨"f.go", 1, Severity.warning, sentinelMsg⟩] ∧
      hasGormImport contentFindNoGorm = false := by decide

/-- C2 amended: whenever rule 3 emits the sentinel warning, the Python
condition `(has_gorm_import and (First in line)) or (Find in line)` held at
the trigger line — so the gorm reference is required only on the `First`
branch, and a `Find`-containing line warns without any gorm reference. -/
theorem c2_amended_sentinel_condition (file : String) (hasGorm : Bool)
    (lines : List (List Char)) (f : Finding)
    (hmem : f ∈ ruleNotFound file hasGorm lines) (hmsg : f.message = sentinelMsg) :
    (hasGorm = true ∧
        containsList (lines.getD (f.line - 1) []) "First".toList = true) ∨
      containsList (lines.getD (f.line - 1) []) "Find".toList = true := by
  rw [ruleNotFound] at hmem
  obtain ⟨pat, hpat, hmem⟩ := List.mem_flatMap.mp hmem
  rw [mem_scanFrom] at hmem
  obtain ⟨k, hk, hsome⟩ := hmem
  have hcond := notFoundAt_sentinel_cond hsome hmsg
  rcases notFoundAt_shape hsome with ⟨j, _, rfl⟩ | rfl
  · exact absurd (show notFoundCodeMsg = sentinelMsg from hmsg) (by decide)
  · have hsub : (1 + k) - 1 = k := by omega
    dsimp only
    rw [hsub]
    exact hcond

/-- C2 witness: the amended condition instantiated at the concrete gorm-free
file, whose emitted warning sits on a `Find`-containing line. -/
theorem c2_amended_witness :
    (false = true ∧
        containsList ((fileLines contentFindNoGorm).getD 0 []) "First".toList = true) ∨
      containsList ((fileLines contentFindNoGorm).getD 0 []) "Find".toList = true :=
  c2_amended_sentinel_condition "f.go" false (fileLines contentFindNoGorm)
    ⟨"f.go", 1, Severity.warning, sentinelMsg⟩ (by decide) rfl

/-- C3: the process exit code is 1 exactly when the scan root is missing or
some produced Finding has error severity, and 0 otherwise — warnings alone,
an empty Finding set, or an existing root with zero files all exit 0. -/
theorem c3_exit_code (rootExists : Bool) (files : List FileInput) :
    mainExitCode rootExists files =
      if rootExists = false ∨
          ∃ f ∈ producedFindings rootExists files, f.severity = Severity.error
        then 1 else 0 := by
  cases rootExists with
  | false => simp [mainExitCode, producedFindings]
  | true =>
    rcases hfe : files.isEmpty with hv | hv
    case true =>
      have hnil : files = [] := List.isEmpty_iff.mp hfe
      subst hnil
      simp [mainExitCode, producedFindings, allIssues]
    case false =>
      simp only [mainExitCode, producedFindings, Bool.not_true, Bool.false_eq_true,
        if_false, hfe, if_true]
      rcases hie : (allIssues files).isEmpty with hw | hw
      case true =>
        have hnil : allIssues files = [] := List.isEmpty_iff.mp hie
        simp [hnil]
      case false =>
        simp only [hie, Bool.not_false, if_true]
        by_cases hex : ∃ f ∈ allIssues files, f.severity = Severity.error
        · have : (allIssues files).filter (fun x => x.severity == Severity.error) ≠ [] := by
            rw [Ne, List.filter_eq_nil_iff]
            push_neg
            obtain ⟨f, hf, hsev⟩ := hex
            exact ⟨f, hf, by simp [hsev]⟩
          simp [this, hex]
        · have : (allIssues files).filter (fun x => x.severity == Severity.error) = [] := by
            rw [List.filter_eq_nil_iff]
            intro a ha
            simp only [beq_iff_eq]
            exact fun hc => hex ⟨a, ha, hc⟩
          simp [this, hex]

/-- C6 counterexample: in a file whose `.Find(...)` trigger (line 1) precedes
its `.First(...)` trigger (line 2), the pattern-major iteration of the
unchecked-not-found rule reports line 2 first and line 1 second, so the
per-file Finding list is not in non-decreasing line order. -/
theorem c6_cex_findings_out_of_order :
    ¬ List.Pairwise (fun a b => a.line ≤ b.line)
        (check_file "f.go" (Except.ok contentPatternOrder)) := by decide

/-- C6 amended: the envelope rule, the missing-Code rule, and the two
error-log rules each return their Findings in non-decreasing line order
(each scans forward recording the trigger line); the unchecked-not-found
rule, which iterates pattern-by-pattern over the whole file, does not. -/
theorem c6_amended_per_rule_sorted (file : String) (lines : List (List Char)) :
    List.Pairwise (fun a b => a.line ≤ b.line) (ruleEnvelope file lines) ∧
      List.Pairwise (fun a b => a.line ≤ b.line) (ruleMissingCode file lines) ∧
      List.Pairwise (fun a b => a.line ≤ b.line) (ruleLogErrCode file lines) ∧
      List.Pairwise (fun a b => a.line ≤ b.line) (ruleLogReqId file lines) := by
  refine ⟨scanFrom_pairwise_le _ (fun i l f h => ?_) lines 1,
    scanFrom_pairwise_le _ (fun i l f h => ?_) lines 1,
    scanFrom_pairwise_le _ (fun i l f h => ?_) lines 1,
    scanFrom_pairwise_le _ (fun i l f h => ?_) lines 1⟩
  · rw [envelopeAt_shape h]
  · rw [missingCodeAt_shape h]
  · rw [logErrCodeAt_shape h]
  · rw [logReqIdAt_shape h]

/-- C7: a file whose read fails yields exactly one file-level error Finding
at line 0 carrying the failure message, and the per-file loop of `main`
still scans every other file: the bad file contributes that one Finding to
the aggregate, with the preceding and following files unaffected. -/
theorem c7_read_failure_isolated (path e : String) (pre post : List FileInput) :
    check_file path (Except.error e) =
        [⟨path, 0, Severity.error, readFailMsg e⟩] ∧
      allIssues (pre ++ ⟨path, Except.error e⟩ :: post) =
        allIssues pre ++ ⟨path, 0, Severity.error, readFailMsg e⟩ :: allIssues post := by
  refine ⟨rfl, ?_⟩
  simp [allIssues, List.flatMap_append, List.flatMap_cons, check_file]

/-- C8: every forward context window is the newline-join of the lines with
indices in `[start, min(start+span, len))` — it truncates at end-of-file,
and every index it reads is strictly below the file's length. -/
theorem c8_window_contract (lines : List (List Char)) (start span : Nat) :
    nextLinesText lines start (start + span) = joinLines (windowSpec lines start span) ∧
      ((List.range' start (min (start + span) lines.length - start)).all
        fun k => decide (k < lines.length)) = true := by
  constructor
  · rw [nextLinesText, windowSpec]
    congr 1
    apply List.ext_getElem
    · rw [listSlice, List.length_drop, List.length_take, List.length_map,
        List.length_range']
      omega
    · intro n h1 h2
      simp only [listSlice] at h1 ⊢
      rw [List.getElem_drop, List.getElem_take, List.getElem_map, List.getElem_range']
      have hlen : n < min (start + span) lines.length - start := by
        simpa [List.length_range'] using h2
      have hb : start + 1 * n < lines.length := by omega
      rw [List.getD_eq_getElem _ _ hb]
      congr 1
      omega
  · rw [List.all_eq_true]
    intro k hk
    rw [List.mem_range'_1] at hk
    simp only [decide_eq_true_eq]
    omega

/-- C9: the line `obj.GetByID(id)` matches both the `.GetByID(...)` pattern
and the `.GetBy<Suffix>(...)` pattern, so rule 3 scans it once per pattern
and appends the same warning Finding twice for that single source line. -/
theorem c9_getbyid_double_match :
    searchPred (matchCallAt ".GetByID(".toList)
        ((fileLines contentGetByIdDup).getD 0 []) = true ∧
      searchPred matchGetByAt ((fileLines contentGetByIdDup).getD 0 []) = true ∧
      check_file "g.go" (Except.ok contentGetByIdDup) =
        [⟨"g.go", 2, Severity.warning, notFoundCodeMsg⟩,
         ⟨"g.go", 2, Severity.warning, notFoundCodeMsg⟩] := by decide

/-- C10: the missing-Code rule's emission test is equivalent to the bare
absence of the substring `Code` from the 11-line window (the `Code:` check
is subsumed), so any occurrence of `Code` inside another identifier — here
`StatusCodeText` — suppresses the error even though the constructor has no
Code field. -/
theorem c10_bare_code_check :
    (∀ (file : String) (lines : List (List Char)),
        ruleMissingCode file lines = ruleMissingCodeBare file lines) ∧
      check_file "sc.go" (Except.ok contentStatusCodeToken) = [] := by
  constructor
  · intro file lines
    rw [ruleMissingCode, ruleMissingCodeBare]
    apply scanFrom_congr
    intro i l
    simp only [missingCodeAt, missingCodeBareAt, codeCond_eq]
  · decide
